import Mathlib

/-!
Verification of `container/pism_cloud_runner.py` (pism/pism-cloud).

This file gives a shallow embedding of the core pipeline of
`pism_cloud_runner.py` — URL parsing (`parse_s3_url`), transfer dispatch
(`download`, `download_pycurl`), staging (`stage`), command execution
(`run`, `process_output`) and orchestration (`main`) — and proves the
behavioural properties claimed of it.

Python strings are modelled as Lean `String`; the relevant pieces of the
Python standard library (`urllib.parse.urlparse`, `pathlib.PurePosixPath`,
`shlex.split`) are modelled from their documented behaviour on the input
class this program handles (URLs without query or fragment parts, POSIX
paths not beginning with exactly two slashes, commands without quoting or
escape characters).  Filesystem directories are modelled as listings of
direct children (name, is-regular-file).  External effects — network
transfers, the child process, boto3/pycurl — enter as explicit parameters
describing their outcome.
-/

/-! ## Character-list utilities (models of Python `str` operations) -/

/-- Models Python `s.split(sep)` on character lists: splits at every
occurrence of `sep`, keeping empty pieces, so `splitChar '/' "".data = [[]]`
and `splitChar '/' "/b".data = [[], ['b']]`. -/
def splitChar (sep : Char) : List Char → List (List Char)
  | [] => [[]]
  | c :: cs =>
    if c = sep then [] :: splitChar sep cs
    else
      match splitChar sep cs with
      | [] => [[c]]
      | g :: gs => (c :: g) :: gs

/-- Interleaves `sep` between groups; the inverse of `splitChar`. -/
def joinChar (sep : Char) : List (List Char) → List Char
  | [] => []
  | [g] => g
  | g :: g2 :: gs => g ++ sep :: joinChar sep (g2 :: gs)

/-- Splits a character list at the first occurrence of `sep`, if any. -/
def splitAtFirst (sep : Char) : List Char → Option (List Char × List Char)
  | [] => none
  | c :: cs =>
    if c = sep then some ([], cs)
    else (splitAtFirst sep cs).map fun p => (c :: p.1, p.2)

/-- Does the character list begin with a slash? -/
def startsWithSlash : List Char → Bool
  | [] => false
  | c :: _ => decide (c = '/')

/-! ## Model of `urllib.parse.urlparse`

Restricted to URLs without query (`?`) and fragment (`#`) parts, which is
the input class `pism_cloud_runner.py` handles. -/

/-- The (scheme, netloc, path) triple produced by `urllib.parse.urlparse`. -/
structure UrlParts where
  scheme : String
  netloc : String
  path : String
deriving DecidableEq, Repr

/-- Valid scheme characters per `urllib.parse`: a letter followed by
letters, digits, `+`, `-` or `.`. -/
def isSchemeChars : List Char → Bool
  | [] => false
  | c :: cs => c.isAlpha && cs.all fun d => d.isAlphanum || d = '+' || d = '-' || d = '.'

/-- Models `urllib.parse.urlparse` for URLs without query and fragment
parts: the scheme is everything before the first `:` (when it is a valid
scheme, lowercased in the result), a netloc follows `//` and extends to the
next `/`, and the rest is the path. -/
def urlparse (url : String) : UrlParts :=
  match splitAtFirst ':' url.data with
  | none => ⟨"", "", url⟩
  | some (pre, rest) =>
    if isSchemeChars pre then
      match rest with
      | '/' :: '/' :: r =>
        match splitAtFirst '/' r with
        | some (n, p) => ⟨⟨pre.map Char.toLower⟩, ⟨n⟩, ⟨'/' :: p⟩⟩
        | none => ⟨⟨pre.map Char.toLower⟩, ⟨r⟩, ""⟩
      | _ => ⟨⟨pre.map Char.toLower⟩, "", ⟨rest⟩⟩
    else ⟨"", "", url⟩

/-! ## Model of `pathlib.PurePosixPath`

Restricted to paths that do not begin with exactly two slashes (the POSIX
`//` root special case, which no URL in this program produces). -/

/-- A pure POSIX path: an absolute flag and the list of components.
Component lists exclude empty and `.` components, as `pathlib` does. -/
structure PurePath where
  absolute : Bool
  parts : List (List Char)
deriving DecidableEq, Repr

/-- Models the `pathlib.PurePosixPath` constructor on a string. -/
def PurePath.ofString (s : String) : PurePath :=
  { absolute := startsWithSlash s.data
    parts := (splitChar '/' s.data).filter fun g => decide (g ≠ [] ∧ g ≠ ['.']) }

/-- Models `str(p)` for a `PurePosixPath`: `.` for the empty relative
path, otherwise the components joined by `/`, with a leading `/` when
absolute. -/
def PurePath.toStr (p : PurePath) : String :=
  if p.absolute then ⟨'/' :: joinChar '/' p.parts⟩
  else if p.parts = [] then "." else ⟨joinChar '/' p.parts⟩

/-- Models `p.name`: the final component, or the empty string if there is
none. -/
def PurePath.name (p : PurePath) : String :=
  ⟨(p.parts.getLast?).getD []⟩

/-- Models `p.is_relative_to("/")`: true exactly for absolute paths. -/
def PurePath.isRelativeToRoot (p : PurePath) : Bool :=
  p.absolute

/-- Models `p.relative_to("/")` on an absolute path: drops the root. -/
def PurePath.relativeToRoot (p : PurePath) : PurePath :=
  ⟨false, p.parts⟩

/-- Models the `pathlib` `/` operator `p / s`: if `s` is absolute it
replaces `p`, otherwise its components are appended. -/
def PurePath.div (p : PurePath) (s : String) : PurePath :=
  let q := PurePath.ofString s
  if q.absolute then q else ⟨p.absolute, p.parts ++ q.parts⟩

/-! ## `parse_s3_url` (source lines 16-30) -/

/-- Embeds `parse_s3_url`: splits the URL with `urlparse`, takes the
netloc as the bucket name, and the path — stripped of its leading
separator when it has one — as the object name. -/
def parse_s3_url (url : String) : String × String :=
  let url_parts := urlparse url
  let path := PurePath.ofString url_parts.path
  let bucket_name := url_parts.netloc
  let object_name := if path.isRelativeToRoot then path.relativeToRoot else path
  (bucket_name, object_name.toStr)

/-- Embeds the upload-target resolution step of `upload_s3` (source line
57): `parse_s3_url(f"{url}/{file_name.name}")`.  The boto3 transfer itself
is an external effect outside the embedding. -/
def upload_s3_target (url : String) (file_name : PurePath) : String × String :=
  parse_s3_url (url ++ "/" ++ file_name.name)

/-! ## `download_pycurl` and `download` (source lines 68-104) -/

/-- A `setopt` call made on the pycurl handle by `download_pycurl`. -/
inductive CurlSetopt where
  | urlOpt (u : String)
  | writedata (file_name : PurePath)
  | followlocation (b : Bool)
  | failonerror (b : Bool)
  | noprogress (b : Bool)
deriving DecidableEq, Repr

/-- Embeds `download_pycurl` as the sequence of options it sets on the
curl handle before calling `perform()`: the URL, the destination file,
`FOLLOWLOCATION=True`, `FAILONERROR=True`, `NOPROGRESS=False`. -/
def download_pycurl (url : String) (file_name : PurePath) : List CurlSetopt :=
  [.urlOpt url, .writedata file_name, .followlocation true, .failonerror true,
   .noprogress false]

/-- Which transfer path `download` used, with its arguments. -/
inductive DownloadCall where
  | viaS3 (url : String) (file_name : PurePath)
  | viaPycurl (url : String) (file_name : PurePath) (setopts : List CurlSetopt)
deriving DecidableEq, Repr

/-- The destination file of a transfer. -/
def DownloadCall.dest : DownloadCall → PurePath
  | .viaS3 _ f => f
  | .viaPycurl _ f _ => f

/-- Embeds `download`: dispatches on the URL scheme, using `download_s3`
when the scheme is `s3` and `download_pycurl` otherwise. -/
def download (url : String) (file_name : PurePath) : DownloadCall :=
  if (urlparse url).scheme = "s3" then .viaS3 url file_name
  else .viaPycurl url file_name (download_pycurl url file_name)

/-! ## `stage` (source lines 106-125) -/

/-- An element of the `inputs` list: a bare URL string, or a two-element
sequence of URL and output file name (the source asserts the length is
exactly two, which the constructor enforces). -/
inductive InputSpec where
  | url (u : String)
  | pair (u : String) (file_name : String)
deriving DecidableEq, Repr

/-- The local file name `stage` chooses for one input: the supplied name
for a pair, and `pathlib.Path(urlparse(url).path).name` for a bare URL. -/
def stage_file_name : InputSpec → String
  | .url u => (PurePath.ofString (urlparse u).path).name
  | .pair _ n => n

/-- The URL of one input. -/
def InputSpec.urlOf : InputSpec → String
  | .url u => u
  | .pair u _ => u

/-- Embeds `stage`: for each input in order, resolves the local file name
and calls `download(url, output_dir / file_name)`.  The value is the list
of transfer calls made, one per input; each call creates the file at its
destination path. -/
def stage (inputs : List InputSpec) (output_dir : PurePath) : List DownloadCall :=
  inputs.map fun item =>
    download item.urlOf (output_dir.div (stage_file_name item))

/-! ## `process_output` and `run` (source lines 127-179) -/

/-- The Python exceptions this program can raise or propagate. -/
inductive PyExc where
  | calledProcessError (returncode : Int) (cmd : List String)
  | fileNotFoundError (filename : String)
  | typeError (msg : String)
  | isADirectoryError (filename : String)
  | keyError (key : String)
  | clientError
  | pycurlError
deriving DecidableEq, Repr

/-- An error-severity log record (`logging.error`).  Info-severity logging
is not tracked; the claims concern only error-severity output. -/
inductive LogEvent where
  | exitedWithCode (cmd : List String) (returncode : Int)
  | capturedStdout (data : List Nat)
  | capturedStderr (data : List Nat)
  | loggedExc (e : PyExc)
deriving DecidableEq, Repr

/-- Models `shlex.split` for command strings containing no quote, escape
or comment characters: splits on spaces, dropping empty tokens. -/
def shlex_split (s : String) : List String :=
  ((splitChar ' ' s.data).filter fun t => decide (t ≠ [])).map fun t => (⟨t⟩ : String)

/-- A directory listing: the direct children, each a name together with
whether it is a regular file (`true`) or a subdirectory (`false`).
Models `pathlib.Path.iterdir` order as list order. -/
abbrev Dir := List (String × Bool)

/-- Models `[x for x in p.iterdir() if x.is_file()]`: the names of the
regular files directly present. -/
def filesOf (d : Dir) : List String :=
  (d.filter fun e => e.2).map fun e => e.1

/-- Models `open(dir / name, "wb")` plus a write, at the listing level: a
directory of that name raises `IsADirectoryError`; an existing regular
file is overwritten (the listing is unchanged); otherwise the new file
appears at the end of the listing. -/
def writeFile (name : String) (d : Dir) : Except PyExc Dir :=
  if d.any fun e => e.1 == name && !e.2 then .error (.isADirectoryError name)
  else if d.any fun e => e.1 == name && e.2 then .ok d
  else .ok (d ++ [(name, true)])

/-- One of the two identically-shaped blocks of `process_output`: when
the captured `stream` is non-empty, either log it at error severity
(`log_output=True`) or persist it to the log file `name` in
`output_dir`.  Returns the outcome, the directory listing, and the
error-severity log records emitted. -/
def write_stream (stream : List Nat) (name : String) (output_dir : Dir)
    (log_output : Bool) (event : List Nat → LogEvent) :
    Except PyExc Unit × Dir × List LogEvent :=
  if stream.length > 0 then
    if log_output then (.ok (), output_dir, [event stream])
    else
      match writeFile name output_dir with
      | .ok d => (.ok (), d, [])
      | .error e => (.error e, output_dir, [])
  else (.ok (), output_dir, [])

/-- Embeds `process_output`: writes non-empty captured streams to
`stdout.log` / `stderr.log` in `output_dir` when `log_output` is false,
and logs them at error severity when it is true — the stdout block first,
then the stderr block. -/
def process_output (stdout stderr : List Nat) (output_dir : Dir) (log_output : Bool) :
    Except PyExc Unit × Dir × List LogEvent :=
  match write_stream stdout "stdout.log" output_dir log_output LogEvent.capturedStdout with
  | (.error e, d, log) => (.error e, d, log)
  | (.ok _, d1, log1) =>
    match write_stream stderr "stderr.log" d1 log_output LogEvent.capturedStderr with
    | (.error e, d, log) => (.error e, d, log1 ++ log)
    | (.ok _, d2, log2) => (.ok (), d2, log1 ++ log2)

/-- The outcome of `subprocess.run(shlex.split(command), capture_output=True,
check=True, cwd=working_directory)`: either the executable cannot be
launched (`FileNotFoundError`), or the process runs to completion,
transforming the working directory listing and producing captured stdout
and stderr bytes and an exit status. -/
inductive CmdBehavior where
  | launchFailure
  | completes (effect : Dir → Dir) (stdout stderr : List Nat) (returncode : Int)

/-- Embeds `run` (source lines 150-179).  On launch failure the
`FileNotFoundError` is logged and re-raised.  On non-zero exit,
`subprocess.run(check=True)` raises `CalledProcessError`; the handler logs
the exit code and then calls `process_output(e, working_directory,
error=True)` — but `process_output` has no parameter named `error` (its
parameter is `log_output`), so Python raises `TypeError` at that call
site: the captured streams are never logged and the `TypeError`
propagates out of `run` in place of the `CalledProcessError`.  On zero
exit, the captured streams are persisted by `process_output` and the
returned value is the list of files in the second snapshot that are
absent from the first. -/
def run (command : String) (behavior : CmdBehavior) (working_directory : Dir) :
    Except PyExc (List String) × Dir × List LogEvent :=
  let old_file_list := filesOf working_directory
  match behavior with
  | .launchFailure =>
    let e := PyExc.fileNotFoundError ((shlex_split command).headD "")
    (.error e, working_directory, [.loggedExc e])
  | .completes effect stdout stderr returncode =>
    let d1 := effect working_directory
    if returncode ≠ 0 then
      (.error (.typeError "process_output() got an unexpected keyword argument: error"),
       d1,
       [.exitedWithCode (shlex_split command) returncode])
    else
      match process_output stdout stderr d1 false with
      | (.error e, d2, log) => (.error e, d2, log)
      | (.ok _, d2, log) =>
        let new_file_list := filesOf d2
        ((.ok (new_file_list.filter fun x => decide (x ∉ old_file_list))), d2, log)

/-! ## `main` (source lines 181-204) -/

/-- The JSON parameter structure handed to `main`; a missing field models
a dictionary without that key. -/
structure ParamsDict where
  inputs : Option (List InputSpec)
  command : Option String
  output : Option String

/-- Models Python dictionary subscripting `params[key]`: raises
`KeyError` when the key is missing. -/
def dictGet {α : Type} (key : String) (v : Option α) : Except PyExc α :=
  match v with
  | some x => .ok x
  | none => .error (.keyError key)

/-- Models the upload loop `for f in new_files: upload_s3(output, ...)`:
stops at the first failing upload. -/
def uploadAll (upload : String → Except PyExc Unit) : List String → Except PyExc Unit
  | [] => .ok ()
  | f :: fs =>
    match upload f with
    | .error e => .error e
    | .ok _ => uploadAll upload fs

/-- What one call to `main` did: its result, whether the scratch
directory was ever created (`tempfile.mkdtemp`), and whether it still
exists when `main` returns or raises. -/
structure PipelineOutcome where
  result : Except PyExc Unit
  tempdirCreated : Bool
  tempdirExistsAfter : Bool

/-- Embeds `main` (the name `main` is reserved in Lean): reads the three parameter fields (failing early with
`KeyError` before any filesystem side effect), creates the scratch
directory, runs stage → run → upload inside `try`, and removes the
scratch directory in `finally`, re-raising any body failure unchanged.
The three steps enter as parameters giving the outcome of each external
effect (their internals are embedded separately as `stage`, `run` and
`upload_s3_target`). -/
def pipeline_main (params : ParamsDict)
    (stageStep : List InputSpec → Except PyExc Unit)
    (runStep : String → Except PyExc (List String))
    (uploadStep : String → String → Except PyExc Unit) : PipelineOutcome :=
  match dictGet "inputs" params.inputs with
  | .error e => ⟨.error e, false, false⟩
  | .ok inputs =>
    match dictGet "command" params.command with
    | .error e => ⟨.error e, false, false⟩
    | .ok command =>
      match dictGet "output" params.output with
      | .error e => ⟨.error e, false, false⟩
      | .ok output =>
        let body : Except PyExc Unit :=
          match stageStep inputs with
          | .error e => .error e
          | .ok _ =>
            match runStep command with
            | .error e => .error e
            | .ok new_files => uploadAll (uploadStep output) new_files
        ⟨body, true, false⟩

/-! ## Well-formedness predicates used in theorem statements -/

/-- A character list is a normal relative path: splitting on `/` yields
no empty piece and no `.` piece (so it is nonempty, has no leading or
trailing separator, no repeated separator, and no `.` component). -/
abbrev NormalParts (l : List Char) : Prop :=
  ∀ g ∈ splitChar '/' l, g ≠ [] ∧ g ≠ ['.']

/-- A string is a single regular path component: nonempty, without a
separator, and neither `.` nor `..` — the formalisation of a local file
name that cannot escape the directory it is joined to. -/
abbrev validComponent (n : String) : Prop :=
  n ≠ "" ∧ '/' ∉ n.data ∧ n ≠ "." ∧ n ≠ ".."

/-! ## Lemmas on the character-list utilities -/

theorem splitChar_ne_nil (sep : Char) (l : List Char) : splitChar sep l ≠ [] := by
  induction l with
  | nil => simp [splitChar]
  | cons c cs ih =>
    rw [splitChar]
    split
    · simp
    · split
      · simp
      · simp

theorem joinChar_splitChar (sep : Char) (l : List Char) :
    joinChar sep (splitChar sep l) = l := by
  induction l with
  | nil => rfl
  | cons c cs ih =>
    rw [splitChar]
    by_cases h : c = sep
    · rw [if_pos h]
      cases hs : splitChar sep cs with
      | nil => exact absurd hs (splitChar_ne_nil sep cs)
      | cons g gs =>
        rw [hs] at ih
        rw [joinChar, List.nil_append, ih, h]
    · rw [if_neg h]
      cases hs : splitChar sep cs with
      | nil => exact absurd hs (splitChar_ne_nil sep cs)
      | cons g gs =>
        rw [hs] at ih
        cases gs with
        | nil =>
          rw [joinChar] at ih ⊢
          rw [ih]
        | cons g2 gs2 =>
          rw [joinChar] at ih ⊢
          rw [List.cons_append, ih]

theorem splitChar_append (sep : Char) (xs ys : List Char) :
    splitChar sep (xs ++ sep :: ys) = splitChar sep xs ++ splitChar sep ys := by
  induction xs with
  | nil => simp [splitChar]
  | cons c cs ih =>
    by_cases h : c = sep
    · simp only [List.cons_append, splitChar, if_pos h, List.append_eq, ih,
        List.cons_append]
    · simp only [List.cons_append, splitChar, if_neg h, List.append_eq, ih]
      cases hs : splitChar sep cs with
      | nil => exact absurd hs (splitChar_ne_nil sep cs)
      | cons g gs => simp [hs]

theorem splitChar_not_mem {sep : Char} {l : List Char} (h : sep ∉ l) :
    splitChar sep l = [l] := by
  induction l with
  | nil => rfl
  | cons c cs ih =>
    have hc : ¬ c = sep := by
      rintro rfl
      exact h (List.mem_cons_self c cs)
    rw [splitChar, if_neg hc, ih (fun hm => h (List.mem_cons_of_mem c hm))]

theorem splitAtFirst_not_mem {sep : Char} {l : List Char} (h : sep ∉ l) :
    splitAtFirst sep l = none := by
  induction l with
  | nil => rfl
  | cons c cs ih =>
    have hc : ¬ c = sep := by
      rintro rfl
      exact h (List.mem_cons_self c cs)
    rw [splitAtFirst, if_neg hc, ih (fun hm => h (List.mem_cons_of_mem c hm)),
      Option.map_none']

theorem splitAtFirst_append {sep : Char} (xs ys : List Char) (h : sep ∉ xs) :
    splitAtFirst sep (xs ++ sep :: ys) = some (xs, ys) := by
  induction xs with
  | nil => simp [splitAtFirst]
  | cons c cs ih =>
    have hc : ¬ c = sep := by
      rintro rfl
      exact h (List.mem_cons_self c cs)
    rw [List.cons_append, splitAtFirst, if_neg hc,
      ih (fun hm => h (List.mem_cons_of_mem c hm)), Option.map_some']

theorem isSchemeChars_no_colon {l : List Char} (h : isSchemeChars l = true) :
    ':' ∉ l := by
  cases l with
  | nil => simp
  | cons c cs =>
    rw [isSchemeChars, Bool.and_eq_true, List.all_eq_true] at h
    intro hmem
    rcases List.mem_cons.mp hmem with rfl | hmem
    · exact absurd h.1 (by decide)
    · have h2 := h.2 _ hmem
      revert h2
      decide

/-! ## Evaluation lemmas for `urlparse` -/

theorem urlparse_full (scheme container key : String)
    (hs : isSchemeChars scheme.data = true)
    (hcs : '/' ∉ container.data) :
    urlparse (scheme ++ "://" ++ container ++ "/" ++ key) =
      ⟨⟨scheme.data.map Char.toLower⟩, container, "/" ++ key⟩ := by
  have h2 : ("://" : String).data = [':', '/', '/'] := rfl
  have h3 : ("/" : String).data = ['/'] := rfl
  have hdata : (scheme ++ "://" ++ container ++ "/" ++ key).data =
      scheme.data ++ ':' :: ('/' :: '/' :: (container.data ++ '/' :: key.data)) := by
    simp [String.data_append, h2, h3]
  rw [urlparse, hdata, splitAtFirst_append _ _ (isSchemeChars_no_colon hs)]
  simp only [hs, if_true]
  rw [splitAtFirst_append _ _ hcs]
  rfl

theorem urlparse_no_path (scheme container : String)
    (hs : isSchemeChars scheme.data = true)
    (hcs : '/' ∉ container.data) :
    urlparse (scheme ++ "://" ++ container) =
      ⟨⟨scheme.data.map Char.toLower⟩, container, ""⟩ := by
  have h2 : ("://" : String).data = [':', '/', '/'] := rfl
  have hdata : (scheme ++ "://" ++ container).data =
      scheme.data ++ ':' :: ('/' :: '/' :: container.data) := by
    simp [String.data_append, h2]
  rw [urlparse, hdata, splitAtFirst_append _ _ (isSchemeChars_no_colon hs)]
  simp only [hs, if_true]
  rw [splitAtFirst_not_mem hcs]

theorem urlparse_no_netloc (scheme key : String)
    (hs : isSchemeChars scheme.data = true)
    (hk : startsWithSlash key.data = false) :
    urlparse (scheme ++ ":" ++ key) =
      ⟨⟨scheme.data.map Char.toLower⟩, "", key⟩ := by
  have h2 : (":" : String).data = [':'] := rfl
  have hdata : (scheme ++ ":" ++ key).data = scheme.data ++ ':' :: key.data := by
    simp [String.data_append, h2]
  rw [urlparse, hdata, splitAtFirst_append _ _ (isSchemeChars_no_colon hs)]
  simp only [hs, if_true]
  split
  · rename_i r heq
    rw [heq] at hk
    simp [startsWithSlash] at hk
  · rfl

/-! ## Evaluation lemmas for `PurePath` and `parse_s3_url` -/

theorem NormalParts.not_slash_head {key : List Char} (hk : NormalParts key) :
    startsWithSlash key = false := by
  cases key with
  | nil => rfl
  | cons c cs =>
    rw [startsWithSlash]
    by_cases h : c = '/'
    · subst h
      have hmem : ([] : List Char) ∈ splitChar '/' ('/' :: cs) := by
        rw [splitChar, if_pos rfl]
        exact List.mem_cons_self _ _
      exact absurd rfl (hk [] hmem).1
    · simp [h]

theorem PurePath.ofString_slash (key : String) (hk : NormalParts key.data) :
    PurePath.ofString ("/" ++ key) = ⟨true, splitChar '/' key.data⟩ := by
  have hdata : ("/" ++ key).data = '/' :: key.data := rfl
  rw [PurePath.ofString, hdata]
  have hsplit : splitChar '/' ('/' :: key.data) = [] :: splitChar '/' key.data := by
    rw [splitChar, if_pos rfl]
  rw [hsplit]
  simp only [startsWithSlash, List.filter_cons, decide_not]
  simp only [PurePath.mk.injEq]
  refine ⟨by simp, ?_⟩
  simp [List.filter_eq_self]
  exact hk

theorem PurePath.ofString_rel (key : String) (hk : NormalParts key.data) :
    PurePath.ofString key = ⟨false, splitChar '/' key.data⟩ := by
  rw [PurePath.ofString]
  have hfilter :
      (splitChar '/' key.data).filter (fun g => decide (g ≠ [] ∧ g ≠ ['.'])) =
        splitChar '/' key.data := by
    rw [List.filter_eq_self]
    intro g hg
    simpa using hk g hg
  rw [hfilter, NormalParts.not_slash_head hk]

theorem PurePath.toStr_splitChar (key : String) :
    PurePath.toStr ⟨false, splitChar '/' key.data⟩ = key := by
  rw [PurePath.toStr]
  simp only [Bool.false_eq_true, if_false]
  rw [if_neg (splitChar_ne_nil '/' key.data), joinChar_splitChar]

theorem parse_s3_url_abs (scheme container key : String)
    (hs : isSchemeChars scheme.data = true)
    (hcs : '/' ∉ container.data) (hk : NormalParts key.data) :
    parse_s3_url (scheme ++ "://" ++ container ++ "/" ++ key) = (container, key) := by
  rw [parse_s3_url, urlparse_full scheme container key hs hcs]
  simp only
  rw [PurePath.ofString_slash key hk]
  show (container, PurePath.toStr ⟨false, splitChar '/' key.data⟩) = (container, key)
  rw [PurePath.toStr_splitChar]

theorem parse_s3_url_rel (scheme key : String)
    (hs : isSchemeChars scheme.data = true) (hk : NormalParts key.data) :
    parse_s3_url (scheme ++ ":" ++ key) = ("", key) := by
  rw [parse_s3_url, urlparse_no_netloc scheme key hs (NormalParts.not_slash_head hk)]
  simp only
  rw [PurePath.ofString_rel key hk]
  show ("", PurePath.toStr ⟨false, splitChar '/' key.data⟩) = ("", key)
  rw [PurePath.toStr_splitChar]

theorem parse_s3_url_bucket_only (scheme container : String)
    (hs : isSchemeChars scheme.data = true)
    (hcs : '/' ∉ container.data) :
    parse_s3_url (scheme ++ "://" ++ container) = (container, ".") := by
  rw [parse_s3_url, urlparse_no_path scheme container hs hcs]
  simp only
  have hempty : PurePath.ofString "" = ⟨false, []⟩ := rfl
  rw [hempty]
  rfl

theorem NormalParts.append {a b : List Char} (ha : NormalParts a) (hb : NormalParts b) :
    NormalParts (a ++ '/' :: b) := by
  intro g hg
  rw [splitChar_append] at hg
  rcases List.mem_append.mp hg with h | h
  · exact ha g h
  · exact hb g h

theorem validComponent.normalParts {n : String} (h : validComponent n) :
    NormalParts n.data := by
  intro g hg
  rw [splitChar_not_mem h.2.1] at hg
  rcases List.mem_singleton.mp hg with rfl
  refine ⟨fun hnil => h.1 (String.ext hnil), fun hdot => h.2.2.1 (String.ext hdot)⟩

/-! ## Claim theorems: the URL resolver (C4, C5, C6) -/

/-- Claim C4: for every object-storage URL of the form
`scheme://container/key...` (authority without separators, key a normal
relative path), `parse_s3_url` yields the authority as the container and
the path with its one leading separator stripped as the key — so
`s3://bucket/a/b.nc` yields container `bucket` and key `a/b.nc`; and for
a URL whose path has no leading separator (a `scheme:key` URL, the only
shape `urlparse` gives a separator-free non-empty path), the entire path
is taken as the key. -/
theorem parse_s3_url_spec (scheme container key : String)
    (hs : isSchemeChars scheme.data = true)
    (hcs : '/' ∉ container.data)
    (hk : NormalParts key.data) :
    parse_s3_url (scheme ++ "://" ++ container ++ "/" ++ key) = (container, key) ∧
    parse_s3_url (scheme ++ ":" ++ key) = ("", key) :=
  ⟨parse_s3_url_abs scheme container key hs hcs hk,
   parse_s3_url_rel scheme key hs hk⟩

/-- Witness for C4 at the spec example `s3://bucket/a/b.nc` (and the
separator-free form `s3:a/b.nc`). -/
theorem parse_s3_url_spec_witness :
    (isSchemeChars "s3".data = true ∧ '/' ∉ "bucket".data ∧ NormalParts "a/b.nc".data) ∧
    parse_s3_url ("s3" ++ "://" ++ "bucket" ++ "/" ++ "a/b.nc") = ("bucket", "a/b.nc") ∧
    parse_s3_url ("s3" ++ ":" ++ "a/b.nc") = ("", "a/b.nc") :=
  ⟨⟨by decide, by decide, by decide⟩,
   parse_s3_url_spec "s3" "bucket" "a/b.nc" (by decide) (by decide) (by decide)⟩

/-- Claim C5 is false on the code: resolving the object-storage URL
`s3://bucket`, whose path is empty, does not fail at all — the code has
no MalformedURL failure path — it returns container `bucket` and key `.`
(the string form of `pathlib.Path("")`); and the default local file name
derived from that URL is silently the empty string, again without
failing. -/
theorem parse_s3_url_no_path_counterexample :
    parse_s3_url "s3://bucket" = ("bucket", ".") ∧
    stage_file_name (.url "s3://bucket") = "" := by
  exact ⟨rfl, rfl⟩

/-- Claim C5 amended: resolution of an object-storage URL with authority
but no path (such as `s3://bucket`) succeeds, yielding the authority as
the container and `.` — the string form of the empty path — as the key;
and deriving a default local file name from a URL whose path is empty
yields the empty string.  Neither operation fails. -/
theorem parse_s3_url_no_path_amended (scheme container : String)
    (hs : isSchemeChars scheme.data = true)
    (hcs : '/' ∉ container.data) :
    parse_s3_url (scheme ++ "://" ++ container) = (container, ".") ∧
    stage_file_name (.url (scheme ++ "://" ++ container)) = "" := by
  refine ⟨parse_s3_url_bucket_only scheme container hs hcs, ?_⟩
  rw [stage_file_name, urlparse_no_path scheme container hs hcs]
  rfl

/-- Witness for the amended C5 at `s3://mybucket`. -/
theorem parse_s3_url_no_path_witness :
    (isSchemeChars "s3".data = true ∧ '/' ∉ "mybucket".data) ∧
    parse_s3_url ("s3" ++ "://" ++ "mybucket") = ("mybucket", ".") ∧
    stage_file_name (.url ("s3" ++ "://" ++ "mybucket")) = "" :=
  ⟨⟨by decide, by decide⟩,
   parse_s3_url_no_path_amended "s3" "mybucket" (by decide) (by decide)⟩

/-- Claim C6: joining a destination prefix URL with a local file name for
upload appends the file name to the prefix key: the upload target of
file `name` under destination `scheme://container/key` resolves to the
container and key `key/name`. -/
theorem upload_s3_target_appends (scheme container key : String) (file_name : PurePath)
    (hs : isSchemeChars scheme.data = true)
    (hcs : '/' ∉ container.data)
    (hk : NormalParts key.data)
    (hn : NormalParts file_name.name.data) :
    upload_s3_target (scheme ++ "://" ++ container ++ "/" ++ key) file_name =
      (container, key ++ "/" ++ file_name.name) := by
  rw [upload_s3_target]
  have hurl : scheme ++ "://" ++ container ++ "/" ++ key ++ "/" ++ file_name.name =
      scheme ++ "://" ++ container ++ "/" ++ (key ++ "/" ++ file_name.name) := by
    apply String.ext
    simp [String.data_append]
  rw [hurl]
  refine parse_s3_url_abs scheme container _ hs hcs ?_
  have hdata : (key ++ "/" ++ file_name.name).data =
      key.data ++ '/' :: file_name.name.data := by
    simp [String.data_append]
  rw [hdata]
  exact NormalParts.append hk hn

/-- Witness for C6 at the spec example: destination `s3://bucket/prefix`
and file name `out.nc` resolve to container `bucket`, key
`prefix/out.nc`. -/
theorem upload_s3_target_appends_witness :
    (isSchemeChars "s3".data = true ∧ '/' ∉ "bucket".data ∧
      NormalParts ("prefix" : String).data ∧
      NormalParts (PurePath.ofString "out.nc").name.data) ∧
    upload_s3_target ("s3" ++ "://" ++ "bucket" ++ "/" ++ "prefix")
        (PurePath.ofString "out.nc") =
      ("bucket", "prefix" ++ "/" ++ (PurePath.ofString "out.nc").name) :=
  ⟨⟨by decide, by decide, by decide, by decide⟩,
   upload_s3_target_appends "s3" "bucket" "prefix" (PurePath.ofString "out.nc")
     (by decide) (by decide) (by decide) (by decide)⟩

/-! ## Claim theorems: transfer dispatch (C8) and staging (C7) -/

/-- Claim C8: `download` dispatches on the URL scheme — an `s3` URL goes
through the object-storage path (`download_s3`), and any other scheme
goes through the generic pycurl path, which is configured to follow
redirects (`FOLLOWLOCATION=True`) and to treat any non-success response
as a failure (`FAILONERROR=True`). -/
theorem download_dispatch_spec (url : String) (file_name : PurePath) :
    ((urlparse url).scheme = "s3" → download url file_name = .viaS3 url file_name) ∧
    ((urlparse url).scheme ≠ "s3" →
      download url file_name = .viaPycurl url file_name (download_pycurl url file_name) ∧
      CurlSetopt.followlocation true ∈ download_pycurl url file_name ∧
      CurlSetopt.failonerror true ∈ download_pycurl url file_name) := by
  constructor
  · intro h
    rw [download, if_pos h]
  · intro h
    refine ⟨by rw [download, if_neg h], ?_, ?_⟩ <;> simp [download_pycurl]

/-- Witness for C8: an `s3` URL goes via the object-storage path, an
`https` URL via pycurl. -/
theorem download_dispatch_spec_witness :
    download "s3://bkt/k" (PurePath.ofString "/w/b.nc") =
      .viaS3 "s3://bkt/k" (PurePath.ofString "/w/b.nc") ∧
    download "https://x/a.nc" (PurePath.ofString "/w/a.nc") =
      .viaPycurl "https://x/a.nc" (PurePath.ofString "/w/a.nc")
        (download_pycurl "https://x/a.nc" (PurePath.ofString "/w/a.nc")) :=
  ⟨(download_dispatch_spec "s3://bkt/k" (PurePath.ofString "/w/b.nc")).1 (by decide),
   ((download_dispatch_spec "https://x/a.nc" (PurePath.ofString "/w/a.nc")).2
     (by decide)).1⟩

theorem PurePath.ofString_component {n : String} (h : validComponent n) :
    PurePath.ofString n = ⟨false, [n.data]⟩ := by
  rw [PurePath.ofString_rel n h.normalParts, splitChar_not_mem h.2.1]

theorem PurePath.div_component (wd : PurePath) {n : String} (h : validComponent n) :
    wd.div n = ⟨wd.absolute, wd.parts ++ [n.data]⟩ := by
  rw [PurePath.div, PurePath.ofString_component h]
  rfl

theorem download_dest (url : String) (file_name : PurePath) :
    (download url file_name).dest = file_name := by
  rw [download]
  split <;> rfl

/-- Claim C7: for every input list whose resolved local file names are
single regular path components — the spec invariant for a pair's supplied
name, and the presupposition that a bare URL ends in a regular final path
component — `stage` makes exactly one file-creating transfer per input,
in input order, whose destination is the working directory extended by
exactly that one component: the override name when the input is a pair,
the URL's final path component otherwise.  Every destination is therefore
a direct child of the working directory — never outside it. -/
theorem stage_creates_per_input (inputs : List InputSpec) (wd : PurePath)
    (hnames : ∀ item ∈ inputs, validComponent (stage_file_name item)) :
    (stage inputs wd).length = inputs.length ∧
    List.Forall₂ (fun item call => DownloadCall.dest call =
        ⟨wd.absolute, wd.parts ++ [(stage_file_name item).data]⟩)
      inputs (stage inputs wd) := by
  refine ⟨by simp [stage], ?_⟩
  induction inputs with
  | nil => exact List.Forall₂.nil
  | cons item rest ih =>
    refine List.Forall₂.cons ?_ ?_
    · rw [download_dest]
      exact PurePath.div_component wd (hnames item (List.mem_cons_self item rest))
    · exact ih fun x hx => hnames x (List.mem_cons_of_mem item hx)

/-- Witness for C7 at the spec example inputs
`["https://x/a.nc", ["s3://bkt/k", "b.nc"]]` and working directory
`/tmp/work`. -/
theorem stage_creates_per_input_witness :
    (∀ item ∈ ([.url "https://x/a.nc", .pair "s3://bkt/k" "b.nc"] : List InputSpec),
      validComponent (stage_file_name item)) ∧
    (stage [.url "https://x/a.nc", .pair "s3://bkt/k" "b.nc"]
        (PurePath.ofString "/tmp/work")).length = 2 ∧
    List.Forall₂ (fun item call => DownloadCall.dest call =
        ⟨(PurePath.ofString "/tmp/work").absolute,
          (PurePath.ofString "/tmp/work").parts ++ [(stage_file_name item).data]⟩)
      [.url "https://x/a.nc", .pair "s3://bkt/k" "b.nc"]
      (stage [.url "https://x/a.nc", .pair "s3://bkt/k" "b.nc"]
        (PurePath.ofString "/tmp/work")) :=
  ⟨by decide,
   stage_creates_per_input [.url "https://x/a.nc", .pair "s3://bkt/k" "b.nc"]
     (PurePath.ofString "/tmp/work") (by decide)⟩

/-! ## Claim theorems: the executor (C9, C1) -/

/-- Claim C9: when the command executable cannot be found or started,
`run` fails with the `FileNotFoundError` raised by `subprocess.run`,
identifying the command through its executable (the first token of the
shell-split command line) — an error kind distinct from the
`CalledProcessError` raised when the command starts but exits
non-zero. -/
theorem run_launch_failure_spec (command : String) (d : Dir) :
    run command .launchFailure d =
      (.error (.fileNotFoundError ((shlex_split command).headD "")), d,
        [.loggedExc (.fileNotFoundError ((shlex_split command).headD ""))]) ∧
    ∀ rc args, (PyExc.fileNotFoundError ((shlex_split command).headD "")) ≠
        PyExc.calledProcessError rc args :=
  ⟨rfl, fun _ _ h => PyExc.noConfusion h⟩

/-- Witness for C9: the command `pismr -i in.nc` whose executable is
missing. -/
theorem run_launch_failure_witness :
    run "pismr -i in.nc" .launchFailure [("in.nc", true)] =
      (.error (.fileNotFoundError "pismr"), [("in.nc", true)],
        [.loggedExc (.fileNotFoundError "pismr")]) ∧
    ∀ rc args, (PyExc.fileNotFoundError "pismr") ≠ PyExc.calledProcessError rc args :=
  (run_launch_failure_spec "pismr -i in.nc" [("in.nc", true)])

/-- Claim C1 is a code bug: at a failing input — the command
`pismr -i in.nc` runs in a directory holding only `in.nc`, produces
captured stdout `out` and stderr `err`, and exits with status 2 — `run`
logs the exit code, but the handler call `process_output(e,
working_directory, error=True)` passes a keyword `error` that
`process_output` does not have (its parameter is `log_output`, and its
docstring intends `log_output=True` here), so Python raises `TypeError`
at the call site: the captured streams are never logged at error
severity, and the failure that propagates is the `TypeError`, not
`CalledProcessError{exitCode=2}`.  The claim is right that no
`stdout.log`/`stderr.log` is written: the directory listing is
unchanged. -/
theorem run_nonzero_exit_eval :
    run "pismr -i in.nc" (.completes id [111, 117, 116] [101, 114, 114] 2)
        [("in.nc", true)] =
      (.error (.typeError "process_output() got an unexpected keyword argument: error"),
        [("in.nc", true)],
        [.exitedWithCode ["pismr", "-i", "in.nc"] 2]) ∧
    (∀ data, LogEvent.capturedStdout data ∉
        [LogEvent.exitedWithCode ["pismr", "-i", "in.nc"] 2]) ∧
    (∀ data, LogEvent.capturedStderr data ∉
        [LogEvent.exitedWithCode ["pismr", "-i", "in.nc"] 2]) := by
  refine ⟨rfl, ?_, ?_⟩ <;> intro data h <;> simp at h

/-! ## Claim theorems: the executor file delta (C3) -/

theorem mem_filesOf {x : String} {d : Dir} : x ∈ filesOf d ↔ (x, true) ∈ d := by
  rw [filesOf, List.mem_map]
  constructor
  · rintro ⟨e, he, rfl⟩
    rw [List.mem_filter] at he
    obtain ⟨e1, e2⟩ := e
    cases e2 with
    | true => exact he.1
    | false => simp at he
  · intro hx
    exact ⟨(x, true), List.mem_filter.mpr ⟨hx, rfl⟩, rfl⟩

theorem writeFile_ok_of_no_dir {name : String} {d : Dir}
    (h : ((name, false) : String × Bool) ∉ d) :
    ∃ d2, writeFile name d = .ok d2 ∧
      (∀ x ∈ filesOf d, x ∈ filesOf d2) ∧
      name ∈ filesOf d2 ∧
      (∀ m, (((m, false) : String × Bool) ∈ d2 ↔ ((m, false) : String × Bool) ∈ d)) := by
  have hany : (d.any fun e => e.1 == name && !e.2) = false := by
    by_contra hc
    rw [Bool.not_eq_false, List.any_eq_true] at hc
    obtain ⟨e, he, hpe⟩ := hc
    obtain ⟨e1, e2⟩ := e
    rw [Bool.and_eq_true, beq_iff_eq, Bool.not_eq_true'] at hpe
    obtain ⟨rfl, rfl⟩ := hpe
    exact h he
  rw [writeFile, hany]
  simp only [Bool.false_eq_true, if_false]
  by_cases hfile : (d.any fun e => e.1 == name && e.2) = true
  · rw [if_pos hfile]
    obtain ⟨e, he, hpe⟩ := List.any_eq_true.mp hfile
    obtain ⟨e1, e2⟩ := e
    rw [Bool.and_eq_true, beq_iff_eq] at hpe
    obtain ⟨rfl, rfl⟩ := hpe
    exact ⟨d, rfl, fun x hx => hx, mem_filesOf.mpr he, fun m => Iff.rfl⟩
  · rw [if_neg hfile]
    refine ⟨d ++ [(name, true)], rfl, ?_, ?_, ?_⟩
    · intro x hx
      rw [mem_filesOf] at hx ⊢
      exact List.mem_append_left _ hx
    · rw [mem_filesOf]
      exact List.mem_append_right _ (List.mem_singleton.mpr rfl)
    · intro m
      constructor
      · intro hm
        rcases List.mem_append.mp hm with hm | hm
        · exact hm
        · simp at hm
      · exact fun hm => List.mem_append_left _ hm

theorem write_stream_ok {stream : List Nat} {name : String} {d : Dir}
    (event : List Nat → LogEvent)
    (h : stream ≠ [] → ((name, false) : String × Bool) ∉ d) :
    ∃ d2, write_stream stream name d false event = (.ok (), d2, []) ∧
      (∀ x ∈ filesOf d, x ∈ filesOf d2) ∧
      (stream ≠ [] → name ∈ filesOf d2) ∧
      (∀ m, (((m, false) : String × Bool) ∈ d2 ↔ ((m, false) : String × Bool) ∈ d)) := by
  by_cases h1 : stream = []
  · subst h1
    exact ⟨d, rfl, fun x hx => hx, fun hc => absurd rfl hc, fun m => Iff.rfl⟩
  · obtain ⟨d2, heq, hmono, hmem, hpres⟩ := writeFile_ok_of_no_dir (h h1)
    refine ⟨d2, ?_, hmono, fun _ => hmem, hpres⟩
    rw [write_stream, if_pos (List.length_pos.mpr h1), if_neg (by simp), heq]

theorem process_output_ok {stdout stderr : List Nat} {d : Dir}
    (hso : stdout ≠ [] → (("stdout.log", false) : String × Bool) ∉ d)
    (hse : stderr ≠ [] → (("stderr.log", false) : String × Bool) ∉ d) :
    ∃ d2 log, process_output stdout stderr d false = (.ok (), d2, log) ∧
      (∀ x ∈ filesOf d, x ∈ filesOf d2) ∧
      (stdout ≠ [] → "stdout.log" ∈ filesOf d2) ∧
      (stderr ≠ [] → "stderr.log" ∈ filesOf d2) := by
  obtain ⟨d1, heq1, hmono1, hmem1, hpres1⟩ := write_stream_ok LogEvent.capturedStdout hso
  have hse1 : stderr ≠ [] → (("stderr.log", false) : String × Bool) ∉ d1 :=
    fun h2 hm => hse h2 ((hpres1 "stderr.log").mp hm)
  obtain ⟨d2, heq2, hmono2, hmem2, _⟩ := write_stream_ok LogEvent.capturedStderr hse1
  refine ⟨d2, [], ?_, fun x hx => hmono2 x (hmono1 x hx),
    fun h1 => hmono2 _ (hmem1 h1), hmem2⟩
  rw [process_output, heq1]
  simp only
  rw [heq2]
  rfl

/-- Claim C3: for every working directory state and every command
completion with exit status zero, `run` returns exactly the regular
files directly present in the working directory after execution (after
the log files were persisted) that were not present before, compared by
path identity: a returned name is one that is a regular direct-child
file afterwards and was not one before — so files merely modified are
excluded and subdirectories are excluded — and `stdout.log` /
`stderr.log` are in the returned delta whenever the corresponding
captured stream was non-empty and the file was not already present
before (the hypotheses only rule out a subdirectory clashing with a log
file name, where the source would raise `IsADirectoryError` instead of
returning). -/
theorem run_zero_exit_delta (command : String) (effect : Dir → Dir)
    (stdout stderr : List Nat) (d : Dir)
    (hso : stdout ≠ [] → (("stdout.log", false) : String × Bool) ∉ effect d)
    (hse : stderr ≠ [] → (("stderr.log", false) : String × Bool) ∉ effect d) :
    ∃ d2 log,
      run command (.completes effect stdout stderr 0) d =
        (.ok ((filesOf d2).filter fun x => decide (x ∉ filesOf d)), d2, log) ∧
      (∀ x, x ∈ ((filesOf d2).filter fun x => decide (x ∉ filesOf d)) ↔
        x ∈ filesOf d2 ∧ x ∉ filesOf d) ∧
      (stdout ≠ [] → "stdout.log" ∉ filesOf d →
        "stdout.log" ∈ ((filesOf d2).filter fun x => decide (x ∉ filesOf d))) ∧
      (stderr ≠ [] → "stderr.log" ∉ filesOf d →
        "stderr.log" ∈ ((filesOf d2).filter fun x => decide (x ∉ filesOf d))) := by
  obtain ⟨d2, log, hpo, hmono, hsout, hserr⟩ := process_output_ok hso hse
  refine ⟨d2, log, ?_, ?_, ?_, ?_⟩
  · rw [run]
    simp only [ne_eq, not_true_eq_false, if_false, decide_not]
    rw [hpo]
  · intro x
    rw [List.mem_filter]
    simp
  · intro h1 h2
    exact List.mem_filter.mpr ⟨hsout h1, decide_eq_true h2⟩
  · intro h1 h2
    exact List.mem_filter.mpr ⟨hserr h1, decide_eq_true h2⟩

/-- Witness for C3: the command writes `result.nc` and prints to stdout;
the delta is `[result.nc, stdout.log]`. -/
theorem run_zero_exit_delta_witness :
    ((([111] : List Nat) ≠ [] →
        (("stdout.log", false) : String × Bool) ∉
          ((fun d => d ++ [("result.nc", true)]) ([("in.nc", true)] : Dir))) ∧
     (([] : List Nat) ≠ [] →
        (("stderr.log", false) : String × Bool) ∉
          ((fun d => d ++ [("result.nc", true)]) ([("in.nc", true)] : Dir)))) ∧
    ∃ d2 log,
      run "pismr -i in.nc -o result.nc"
          (.completes (fun d => d ++ [("result.nc", true)]) [111] [] 0)
          [("in.nc", true)] =
        (.ok ((filesOf d2).filter fun x => decide (x ∉ filesOf [("in.nc", true)])),
          d2, log) ∧
      (∀ x, x ∈ ((filesOf d2).filter fun x => decide (x ∉ filesOf [("in.nc", true)])) ↔
        x ∈ filesOf d2 ∧ x ∉ filesOf [("in.nc", true)]) ∧
      (([111] : List Nat) ≠ [] → "stdout.log" ∉ filesOf [("in.nc", true)] →
        "stdout.log" ∈
          ((filesOf d2).filter fun x => decide (x ∉ filesOf [("in.nc", true)]))) ∧
      (([] : List Nat) ≠ [] → "stderr.log" ∉ filesOf [("in.nc", true)] →
        "stderr.log" ∈
          ((filesOf d2).filter fun x => decide (x ∉ filesOf [("in.nc", true)]))) :=
  ⟨⟨by decide, by decide⟩,
   run_zero_exit_delta "pismr -i in.nc -o result.nc"
     (fun d => d ++ [("result.nc", true)]) [111] [] [("in.nc", true)]
     (by decide) (by decide)⟩

/-! ## Claim theorems: the orchestrator (C2, C10) -/

theorem uploadAll_error {upload : String → Except PyExc Unit} {fs : List String}
    {e : PyExc} (h : uploadAll upload fs = .error e) :
    ∃ f ∈ fs, upload f = .error e := by
  induction fs with
  | nil => exact absurd h (by rw [uploadAll]; simp)
  | cons f rest ih =>
    rw [uploadAll] at h
    cases hf : upload f with
    | error e2 =>
      rw [hf] at h
      cases h
      exact ⟨f, List.mem_cons_self f rest, hf⟩
    | ok u =>
      rw [hf] at h
      obtain ⟨g, hg, hge⟩ := ih h
      exact ⟨g, List.mem_cons_of_mem f hg, hge⟩

/-- Claim C2: for every parameter value with all three fields present and
every outcome of the three steps, `pipeline_main` creates the scratch
directory and has removed it by the time it returns or raises — on the
all-success path and on every failure path alike; and its result is
either success or exactly an error produced by one of the steps (stage,
run, or the upload of one of the returned files): the orchestrator
introduces no error of its own, it only guarantees cleanup ordering. -/
theorem pipeline_main_cleanup (params : ParamsDict)
    (stageStep : List InputSpec → Except PyExc Unit)
    (runStep : String → Except PyExc (List String))
    (uploadStep : String → String → Except PyExc Unit)
    (inputs : List InputSpec) (command output : String)
    (hin : params.inputs = some inputs)
    (hcmd : params.command = some command)
    (hout : params.output = some output) :
    (pipeline_main params stageStep runStep uploadStep).tempdirCreated = true ∧
    (pipeline_main params stageStep runStep uploadStep).tempdirExistsAfter = false ∧
    ((pipeline_main params stageStep runStep uploadStep).result = .ok () ∨
      ∃ e, (pipeline_main params stageStep runStep uploadStep).result = .error e ∧
        (stageStep inputs = .error e ∨
         (stageStep inputs = .ok () ∧ runStep command = .error e) ∨
         (stageStep inputs = .ok () ∧ ∃ fs, runStep command = .ok fs ∧
           ∃ f ∈ fs, uploadStep output f = .error e))) := by
  cases hstage : stageStep inputs with
  | error e =>
    have hmain : pipeline_main params stageStep runStep uploadStep =
        ⟨.error e, true, false⟩ := by
      rw [pipeline_main, hin, hcmd, hout]
      simp only [dictGet]
      rw [hstage]
    rw [hmain]
    exact ⟨rfl, rfl, Or.inr ⟨e, rfl, Or.inl rfl⟩⟩
  | ok u =>
    obtain rfl : u = () := rfl
    cases hrun : runStep command with
    | error e =>
      have hmain : pipeline_main params stageStep runStep uploadStep =
          ⟨.error e, true, false⟩ := by
        rw [pipeline_main, hin, hcmd, hout]
        simp only [dictGet]
        rw [hstage]
        simp only
        rw [hrun]
      rw [hmain]
      exact ⟨rfl, rfl, Or.inr ⟨e, rfl, Or.inr (Or.inl ⟨rfl, rfl⟩)⟩⟩
    | ok fs =>
      have hmain : pipeline_main params stageStep runStep uploadStep =
          ⟨uploadAll (uploadStep output) fs, true, false⟩ := by
        rw [pipeline_main, hin, hcmd, hout]
        simp only [dictGet]
        rw [hstage]
        simp only
        rw [hrun]
      rw [hmain]
      cases hup : uploadAll (uploadStep output) fs with
      | error e =>
        exact ⟨rfl, rfl, Or.inr ⟨e, rfl, Or.inr (Or.inr
          ⟨rfl, fs, rfl, uploadAll_error hup⟩)⟩⟩
      | ok u2 =>
        obtain rfl : u2 = () := rfl
        exact ⟨rfl, rfl, Or.inl rfl⟩

/-- Witness for C2: a run whose upload of `out.nc` fails with a boto3
client error; the scratch directory is created and removed, and the
propagated error is the upload step's. -/
theorem pipeline_main_cleanup_witness :
    ((⟨some [], some "pismr", some "s3://b/p"⟩ : ParamsDict).inputs = some [] ∧
     (⟨some [], some "pismr", some "s3://b/p"⟩ : ParamsDict).command = some "pismr" ∧
     (⟨some [], some "pismr", some "s3://b/p"⟩ : ParamsDict).output = some "s3://b/p") ∧
    (pipeline_main ⟨some [], some "pismr", some "s3://b/p"⟩
        (fun _ => .ok ()) (fun _ => .ok ["out.nc"])
        (fun _ _ => .error .clientError)).tempdirCreated = true ∧
    (pipeline_main ⟨some [], some "pismr", some "s3://b/p"⟩
        (fun _ => .ok ()) (fun _ => .ok ["out.nc"])
        (fun _ _ => .error .clientError)).tempdirExistsAfter = false ∧
    ((pipeline_main ⟨some [], some "pismr", some "s3://b/p"⟩
        (fun _ => .ok ()) (fun _ => .ok ["out.nc"])
        (fun _ _ => .error .clientError)).result = .ok () ∨
      ∃ e, (pipeline_main ⟨some [], some "pismr", some "s3://b/p"⟩
        (fun _ => .ok ()) (fun _ => .ok ["out.nc"])
        (fun _ _ => .error .clientError)).result = .error e ∧
        (((fun _ => .ok ()) : List InputSpec → Except PyExc Unit) [] = .error e ∨
         (((fun _ => .ok ()) : List InputSpec → Except PyExc Unit) [] = .ok () ∧
           ((fun _ => .ok ["out.nc"]) : String → Except PyExc (List String)) "pismr" =
             .error e) ∨
         (((fun _ => .ok ()) : List InputSpec → Except PyExc Unit) [] = .ok () ∧
           ∃ fs, ((fun _ => .ok ["out.nc"]) : String → Except PyExc (List String))
               "pismr" = .ok fs ∧
             ∃ f ∈ fs, ((fun _ _ => .error .clientError) :
                 String → String → Except PyExc Unit) "s3://b/p" f = .error e))) :=
  ⟨⟨rfl, rfl, rfl⟩,
   pipeline_main_cleanup ⟨some [], some "pismr", some "s3://b/p"⟩
     (fun _ => .ok ()) (fun _ => .ok ["out.nc"]) (fun _ _ => .error .clientError)
     [] "pismr" "s3://b/p" rfl rfl rfl⟩

/-- Claim C10: `pipeline_main` reads all three parameter fields before
creating the working directory (the source comment says it uses `params`
first "so it fails early"), so for every parameter structure missing one
of the fields it fails with `KeyError` before any filesystem side
effect: the scratch directory is never created, hence none is left
behind. -/
theorem pipeline_main_missing_field (params : ParamsDict)
    (stageStep : List InputSpec → Except PyExc Unit)
    (runStep : String → Except PyExc (List String))
    (uploadStep : String → String → Except PyExc Unit)
    (h : params.inputs = none ∨ params.command = none ∨ params.output = none) :
    (pipeline_main params stageStep runStep uploadStep).tempdirCreated = false ∧
    (pipeline_main params stageStep runStep uploadStep).tempdirExistsAfter = false ∧
    ∃ k, (pipeline_main params stageStep runStep uploadStep).result =
      .error (.keyError k) := by
  rw [pipeline_main]
  cases hin : params.inputs with
  | none => exact ⟨rfl, rfl, "inputs", rfl⟩
  | some inputs =>
    cases hcmd : params.command with
    | none => exact ⟨rfl, rfl, "command", rfl⟩
    | some command =>
      cases hout : params.output with
      | none => exact ⟨rfl, rfl, "output", rfl⟩
      | some output =>
        rw [hin, hcmd, hout] at h
        rcases h with h | h | h <;> cases h

/-- Witness for C10: parameters missing the `command` field. -/
theorem pipeline_main_missing_field_witness :
    ((⟨some [], none, some "s3://b/p"⟩ : ParamsDict).inputs = none ∨
     (⟨some [], none, some "s3://b/p"⟩ : ParamsDict).command = none ∨
     (⟨some [], none, some "s3://b/p"⟩ : ParamsDict).output = none) ∧
    (pipeline_main ⟨some [], none, some "s3://b/p"⟩
        (fun _ => .ok ()) (fun _ => .ok []) (fun _ _ => .ok ())).tempdirCreated = false ∧
    (pipeline_main ⟨some [], none, some "s3://b/p"⟩
        (fun _ => .ok ()) (fun _ => .ok []) (fun _ _ => .ok ())).tempdirExistsAfter
      = false ∧
    ∃ k, (pipeline_main ⟨some [], none, some "s3://b/p"⟩
        (fun _ => .ok ()) (fun _ => .ok []) (fun _ _ => .ok ())).result =
      .error (.keyError k) :=
  ⟨Or.inr (Or.inl rfl),
   pipeline_main_missing_field ⟨some [], none, some "s3://b/p"⟩
     (fun _ => .ok ()) (fun _ => .ok []) (fun _ _ => .ok ()) (Or.inr (Or.inl rfl))⟩
